import Mathlib

/-!
# PaperUploader: the upload / poll state machine of `PaperUploader.jsx`

A shallow embedding of the React component `PaperUploader`
(`frontend/src/components/PaperUploader.jsx`).

* The component state is the record of the five `useState` cells.
* Every handler is a function from the state before it runs to the state after
  it and the list of effects (`fetch`, `setTimeout`) it issued.  An `async`
  handler is cut at its `await`: one function for the part that runs before the
  request is sent, one (`...Resume`) for the part that runs when the request and
  the `response.json()` after it have settled.
* JavaScript numbers are IEEE-754 binary64 values; division and multiplication
  round the exact quotient and product to nearest, ties to even.
* A conversion that throws (of a task id to text in the template literal, of
  `elapsed_time` to a Number) takes the handler to its `catch`; a render that throws
  (an error value that is no valid React child) shows nothing.
-/

namespace PaperUploader

/-! ## JavaScript numbers -/

/-- The JavaScript Number type.  `fin neg m e` denotes `(-1)^neg * m * 2^e`; a
binary64 value has `m < 2^53` and `-1074 ≤ e ≤ 971`.  One numeric value has
several such representations (`fin false 50 0` and `fin false (50 * 2^47) (-47)`),
and the two zeros are `fin false 0 e` and `fin true 0 e`. -/
inductive F64 where
  | nan
  | inf (neg : Bool)
  | fin (neg : Bool) (m : Nat) (e : Int)
deriving DecidableEq, Repr

namespace F64

/-- The Number of a numeric literal that is a natural number (`0`, `95`, `100`, `120`). -/
def ofNat (n : Nat) : F64 := fin false n 0

/-- Binary logarithm rounded down, by repeated halving (`fuel` bounds the halvings). -/
def log2Fuel : Nat → Nat → Nat
  | 0, _ => 0
  | fuel + 1, n => if n < 2 then 0 else log2Fuel fuel (n / 2) + 1

/-- Binary logarithm of a positive natural number, rounded down. -/
def log2 (n : Nat) : Nat := log2Fuel n n

/-- The integer `c` with `2^c ≤ n / d < 2^(c+1)`, for positive `n` and `d`. -/
def floorLog2 (n d : Nat) : Int :=
  let c : Int := (log2 n : Int) - (log2 d : Int)
  if d * 2 ^ c.toNat ≤ n * 2 ^ (-c).toNat then c else c - 1

/-- The binary64 value nearest to the rational `n / d` (`d > 0`), ties to the even
significand, with sign `neg`: the rounding every IEEE-754 arithmetic operation
applies to its exact result.  Overflow gives an infinity, underflow a subnormal or
a zero. -/
def roundQ (neg : Bool) (n d : Nat) : F64 :=
  if n = 0 then fin neg 0 0
  else
    let e : Int := max (floorLog2 n d - 52) (-1074)
    let num := n * 2 ^ (-e).toNat
    let den := d * 2 ^ e.toNat
    let q := num / den
    let r := num % den
    let m := if 2 * r < den then q else if den < 2 * r then q + 1 else if q % 2 = 0 then q else q + 1
    let m1 := if m = 2 ^ 53 then 2 ^ 52 else m
    let e1 := if m = 2 ^ 53 then e + 1 else e
    if 971 < e1 then inf neg else fin neg m1 e1

/-- The operator `/` on Numbers. -/
def div : F64 → F64 → F64
  | nan, _ => nan
  | _, nan => nan
  | inf _, inf _ => nan
  | inf a, fin b _ _ => inf (xor a b)
  | fin a _ _, inf b => fin (xor a b) 0 0
  | fin a m1 e1, fin b m2 e2 =>
    if m2 = 0 then (if m1 = 0 then nan else inf (xor a b))
    else
      let base := min e1 e2
      roundQ (xor a b) (m1 * 2 ^ (e1 - base).toNat) (m2 * 2 ^ (e2 - base).toNat)

/-- The operator `*` on Numbers. -/
def mul : F64 → F64 → F64
  | nan, _ => nan
  | _, nan => nan
  | inf a, inf b => inf (xor a b)
  | inf a, fin b m _ => if m = 0 then nan else inf (xor a b)
  | fin a m _, inf b => if m = 0 then nan else inf (xor a b)
  | fin a m1 e1, fin b m2 e2 =>
    roundQ (xor a b) (m1 * m2 * 2 ^ (e1 + e2).toNat) (2 ^ (-(e1 + e2)).toNat)

/-- The integer `(-1)^neg * m * 2^(e - base)`, for `base ≤ e`: a finite value in
units of `2^base`. -/
def scaled (neg : Bool) (m : Nat) (e base : Int) : Int :=
  (if neg then -(m : Int) else (m : Int)) * 2 ^ (e - base).toNat

/-- The comparison `x < y` on Numbers (false when either is NaN). -/
def lt : F64 → F64 → Bool
  | nan, _ => false
  | _, nan => false
  | inf a, inf b => a && !b
  | inf a, fin _ _ _ => a
  | fin _ _ _, inf b => !b
  | fin a m1 e1, fin b m2 e2 =>
    decide (scaled a m1 e1 (min e1 e2) < scaled b m2 e2 (min e1 e2))

/-- The comparison `x ≤ y` on Numbers (false when either is NaN). -/
def le : F64 → F64 → Bool
  | nan, _ => false
  | _, nan => false
  | inf a, inf b => a || !b
  | inf a, fin _ _ _ => a
  | fin _ _ _, inf b => !b
  | fin a m1 e1, fin b m2 e2 =>
    decide (scaled a m1 e1 (min e1 e2) ≤ scaled b m2 e2 (min e1 e2))

/-- Whether the value is `+0` or `-0`. -/
def isZero : F64 → Bool
  | fin _ 0 _ => true
  | _ => false

/-- Whether the value is `-0`. -/
def isNegZero : F64 → Bool
  | fin true 0 _ => true
  | _ => false

/-- The integer a Number is equal to, when it is equal to one (`-0` is equal to `0`). -/
def toInt? : F64 → Option Int
  | nan => none
  | inf _ => none
  | fin neg m e =>
    if 0 ≤ e then some ((if neg then -(m : Int) else (m : Int)) * 2 ^ e.toNat)
    else if m % 2 ^ (-e).toNat = 0 then
      some (if neg then -((m / 2 ^ (-e).toNat : Nat) : Int) else ((m / 2 ^ (-e).toNat : Nat) : Int))
    else none

end F64

namespace Math

/-- `Math.round`: the integer nearest to `x`, a tie going to the one closer to
`+∞`; NaN, the infinities and integers are returned as they are, and a negative `x`
that rounds to zero gives `-0`. -/
def round : F64 → F64
  | .nan => .nan
  | .inf s => .inf s
  | .fin neg m e =>
    if 0 ≤ e then .fin neg m e
    else
      let k := (-e).toNat
      if neg then
        .fin true (if 2 * m ≤ 2 ^ k then 0 else (2 * m - 2 ^ k + 2 ^ (k + 1) - 1) / 2 ^ (k + 1)) 0
      else
        .fin false ((2 * m + 2 ^ k) / 2 ^ (k + 1)) 0

/-- `Math.min` of two Numbers: NaN when either is NaN, `-0` below `+0`. -/
def min (a b : F64) : F64 :=
  match a, b with
  | .nan, _ => .nan
  | _, .nan => .nan
  | a, b =>
    if a.isZero && b.isZero then (if a.isNegZero then a else b)
    else if F64.lt b a then b else a

end Math

/-! ## JSON values and the JavaScript operations the component applies to them -/

/-- A value produced by `response.json()`.  `num` never holds NaN: no JSON text
parses to it (`1e999` parses to `inf false`).  `obj` lists the members in the order
of the text, a repeated key standing for its last occurrence. -/
inductive Json where
  | null
  | bool (b : Bool)
  | num (x : F64)
  | str (s : String)
  | arr (items : List Json)
  | obj (members : List (String × Json))

/-- A JavaScript value the component handles: `undefined` or a JSON value. -/
inductive JsVal where
  | undefined
  | json (j : Json)

/-- The value `null`. -/
def JsVal.null : JsVal := .json .null

/-- A string value. -/
def JsVal.str (s : String) : JsVal := .json (.str s)

/-- The property read `data.key` on a value other than `null`, for the keys the
component reads (`status`, `result`, `error`, `elapsed_time`, `task_id`): the
member of an object, `undefined` on an object without it and on every array,
string, number and boolean. -/
def Json.field (data : Json) (key : String) : JsVal :=
  match data with
  | .obj members =>
    match members.reverse.find? (fun kv => kv.1 == key) with
    | some kv => .json kv.2
    | none => .undefined
  | _ => .undefined

/-- The comparison `v === s` with a string literal `s`. -/
def JsVal.strictEqStr (v : JsVal) (s : String) : Bool :=
  match v with
  | .json (.str t) => t == s
  | _ => false

/-- Truthiness, as `if (v)` and `v && ...` test it. -/
def JsVal.truthy : JsVal → Bool
  | .undefined => false
  | .json .null => false
  | .json (.bool b) => b
  | .json (.num x) => !(x.isZero) && x != F64.nan
  | .json (.str s) => s != ""
  | .json (.arr _) => true
  | .json (.obj _) => true

mutual
/-- Whether converting the value to a primitive (which ToString and ToNumber do
first) throws a TypeError.  A parsed object has the methods of `Object.prototype`
unless a member of its own hides them, and a member is never callable: with an own
member `toString` no method returns a primitive and the conversion throws, without
one `Object.prototype.toString` answers `[object Object]`.  An array is converted by
`join`, which converts every element other than `null`. -/
def Json.conversionThrows : Json → Bool
  | .obj members => members.any (fun kv => kv.1 == "toString")
  | .arr items => Json.anyConversionThrows items
  | _ => false
/-- Whether the conversion of one of the values throws. -/
def Json.anyConversionThrows : List Json → Bool
  | [] => false
  | x :: xs => x.conversionThrows || Json.anyConversionThrows xs
end

/-- `Json.conversionThrows` of a value that may be `undefined` (which converts to
`"undefined"` and to NaN). -/
def JsVal.conversionThrows : JsVal → Bool
  | .undefined => false
  | .json j => j.conversionThrows

mutual
/-- Whether React accepts the value as a child: strings, numbers, booleans, `null`
and arrays of such; on a plain object it throws "Objects are not valid as a React
child". -/
def Json.validChild : Json → Bool
  | .obj _ => false
  | .arr items => Json.validChildren items
  | _ => true
/-- Whether React accepts every one of the values as a child. -/
def Json.validChildren : List Json → Bool
  | [] => true
  | x :: xs => x.validChild && Json.validChildren xs
end

/-- `Json.validChild` of a value that may be `undefined` (which renders nothing). -/
def JsVal.validChild : JsVal → Bool
  | .undefined => true
  | .json j => j.validChild

/-- What the JavaScript engine supplies and this development leaves open. -/
structure Engine where
  /-- The conversion StringToNumber of a string to a Number. -/
  stringToNumber : String → F64
  /-- The message of the TypeError thrown by reading property `key` of `null`. -/
  nullReadMessage : String → String

mutual
/-- ToNumber of an array whose conversion does not throw, that is StringToNumber of
`items.join(",")`: of the empty string, which is `+0`, for no element; of the text
of the element for one; of a text with a comma, which is no numeric literal, for more. -/
def Json.arrayToNumber (eng : Engine) : List Json → F64
  | [] => F64.ofNat 0
  | [x] => Json.elementToNumber eng x
  | _ :: _ :: _ => F64.nan
/-- StringToNumber of the text `join` gives one element: the empty string for `null`,
`true` or `false` for a boolean, `[object Object]` for an object, and for a Number the
text of Number::toString, which StringToNumber reads back as that Number (as `+0`
for `-0`). -/
def Json.elementToNumber (eng : Engine) : Json → F64
  | .null => F64.ofNat 0
  | .bool _ => F64.nan
  | .num x => if x.isZero then F64.ofNat 0 else x
  | .str s => eng.stringToNumber s
  | .arr items => Json.arrayToNumber eng items
  | .obj _ => F64.nan
end

/-- The conversion ToNumber, which `/` applies to its left operand, where it does
not throw (`JsVal.conversionThrows`). -/
def toNumber (eng : Engine) : JsVal → F64
  | .undefined => .nan
  | .json .null => F64.ofNat 0
  | .json (.bool b) => if b then F64.ofNat 1 else F64.ofNat 0
  | .json (.num x) => x
  | .json (.str s) => eng.stringToNumber s
  | .json (.arr items) => Json.arrayToNumber eng items
  | .json (.obj _) => F64.nan

/-! ## Component state and effects -/

/-- A `File` of the file picker: its display name and its declared media type. -/
structure File where
  name : String
  type : String
deriving DecidableEq, Repr

/-- The five `useState` cells of the component. -/
structure State where
  file : Option File
  isProcessing : Bool
  error : JsVal
  result : JsVal
  progress : F64

/-- The state of a freshly mounted component. -/
def initialState : State :=
  { file := none, isProcessing := false, error := .null, result := .null,
    progress := F64.ofNat 0 }

/-- What a handler asks of the browser. -/
inductive Effect where
  /-- `fetch(url, {method: 'POST', body})` with a form body whose field `file` is the file. -/
  | fetchPost (url : String) (file : File)
  /-- `fetch` of the template literal made of `urlPrefix` followed by the task id. -/
  | fetchGet (urlPrefix : String) (taskId : JsVal)
  /-- `setTimeout(() => checkTaskStatus(taskId), delay)`. -/
  | setTimeout (taskId : JsVal) (delay : Nat)

/-- The upload endpoint. -/
def uploadUrl : String := "http://localhost:9000/api/v1/upload-paper"

/-- The status endpoint, up to the task id. -/
def statusUrlPrefix : String := "http://localhost:9000/api/v1/task-status/"

/-- How the upload request and the `response.json()` after it settle. -/
inductive UploadOutcome where
  /-- The `fetch` promise rejects with an error whose message is `message`. -/
  | rejected (message : String)
  /-- The `fetch` promise resolves to a response with `response.ok = ok`; `body` is
  what `response.json()` gives: the parsed value, or the message of the error it
  rejects with. -/
  | response (ok : Bool) (body : Except String Json)

/-- How a status request and the `response.json()` after it settle. -/
inductive StatusOutcome where
  /-- The `fetch` or the `response.json()` promise rejects. -/
  | failed
  /-- The body parses to `data`. -/
  | data (data : Json)

/-! ## The handlers -/

/-- `handleFileChange`, lines 12-21; `selectedFile` is `event.target.files[0]`,
`none` when the list is empty. -/
def handleFileChange (s : State) (selectedFile : Option File) : State × List Effect :=
  match selectedFile with
  | some f =>
    if f.type = "application/pdf" then
      ({ s with file := some f, error := .null }, [])
    else
      ({ s with error := .str "Please select a PDF file", file := none }, [])
  | none => ({ s with error := .str "Please select a PDF file", file := none }, [])

/-- `checkTaskStatus(taskId)` up to its first `await`, line 25: the status request is
sent, unless the conversion of `taskId` to text in the template literal throws, which
the `catch` handles. -/
def checkTaskStatus (s : State) (taskId : JsVal) : State × List Effect :=
  if taskId.conversionThrows then
    ({ s with isProcessing := false, error := .str "Failed to check task status" }, [])
  else (s, [.fetchGet statusUrlPrefix taskId])

/-- The progress estimate of line 38 from `data.elapsed_time`. -/
def pendingProgress (eng : Engine) (elapsedTime : JsVal) : F64 :=
  Math.min (Math.round (F64.mul (F64.div (toNumber eng elapsedTime) (F64.ofNat 120)) (F64.ofNat 100)))
    (F64.ofNat 95)

/-- `checkTaskStatus(taskId)` from its first `await` on, lines 26-47. -/
def checkTaskStatusResume (eng : Engine) (s : State) (taskId : JsVal) (o : StatusOutcome) :
    State × List Effect :=
  match o with
  | .failed => ({ s with isProcessing := false, error := .str "Failed to check task status" }, [])
  | .data .null =>
    -- reading `data.status` throws a TypeError, which the `catch` handles
    ({ s with isProcessing := false, error := .str "Failed to check task status" }, [])
  | .data data =>
    if (data.field "status").strictEqStr "completed" then
      ({ s with isProcessing := false, result := data.field "result", progress := F64.ofNat 100 }, [])
    else if (data.field "status").strictEqStr "error" then
      ({ s with isProcessing := false, error := data.field "error" }, [])
    else if (data.field "elapsed_time").conversionThrows then
      -- the division throws a TypeError, which the `catch` handles
      ({ s with isProcessing := false, error := .str "Failed to check task status" }, [])
    else
      ({ s with progress := pendingProgress eng (data.field "elapsed_time") },
        [.setTimeout taskId 2000])

/-- `handleUpload` up to its first `await`, lines 50-68. -/
def handleUpload (s : State) : State × List Effect :=
  match s.file with
  | none => ({ s with error := .str "Please select a file first" }, [])
  | some f =>
    ({ s with isProcessing := true, error := .null, result := .null, progress := F64.ofNat 0 },
      [.fetchPost uploadUrl f])

/-- `handleUpload` from its first `await` on, lines 65-85. -/
def handleUploadResume (eng : Engine) (s : State) (o : UploadOutcome) : State × List Effect :=
  match o with
  | .rejected message => ({ s with isProcessing := false, error := .str message }, [])
  | .response false _ =>
    ({ s with isProcessing := false, error := .str "Failed to upload file" }, [])
  | .response true (.error message) =>
    ({ s with isProcessing := false, error := .str message }, [])
  | .response true (.ok .null) =>
    -- reading `data.task_id` throws a TypeError, which the `catch` handles
    ({ s with isProcessing := false, error := .str (eng.nullReadMessage "task_id") }, [])
  | .response true (.ok data) =>
    if (data.field "task_id").truthy then checkTaskStatus s (data.field "task_id")
    else ({ s with isProcessing := false, error := .str "Invalid response from server" }, [])

/-! ## Rendering -/

/-- What the rendered tree shows, lines 88-155, when rendering succeeds. -/
structure View where
  /-- The `disabled` attribute of the "Select PDF" button. -/
  selectDisabled : Bool
  /-- The name after "Selected: ", when a file is selected. -/
  selectedName : Option String
  /-- The value of the progress indicator, shown while processing. -/
  progressShown : Option F64
  /-- The content of the error alert, shown when `error` is truthy. -/
  errorAlert : Option JsVal
  /-- The value printed in the result panel, shown when `result` is truthy. -/
  resultPanel : Option JsVal
  /-- The text of the action button. -/
  actionLabel : String
  /-- The `disabled` attribute of the action button. -/
  actionDisabled : Bool

/-- The render function of the component; `none` when rendering throws, which
unmounts the component so that nothing is shown.  That happens when `error` is truthy
and is no valid child of the alert of lines 128-132 (a plain object, or an array with
one in it); `JSON.stringify` makes a string of every `result`. -/
def render (s : State) : Option View :=
  if s.error.truthy && !s.error.validChild then none
  else
    some
      { selectDisabled := s.isProcessing
        selectedName := s.file.map (fun f => f.name)
        progressShown := if s.isProcessing then some s.progress else none
        errorAlert := if s.error.truthy then some s.error else none
        resultPanel := if s.result.truthy then some s.result else none
        actionLabel := if s.isProcessing then "Processing..." else "Upload and Analyze"
        actionDisabled := s.file.isNone || s.isProcessing }

/-! ## The component as a transition system -/

/-- The component state together with the requests and timers that are outstanding. -/
structure Config where
  ui : State
  pending : List Effect

/-- A freshly mounted component: nothing selected, nothing outstanding. -/
def Config.init : Config := { ui := initialState, pending := [] }

/-- What can happen to the component; `i` is the position of the request or timer
concerned among the outstanding ones. -/
inductive Event where
  /-- The file picker reports a change. -/
  | selectFile (selectedFile : Option File)
  /-- `handleUpload` is invoked. -/
  | upload
  /-- The upload request settles. -/
  | uploadSettled (i : Nat) (o : UploadOutcome)
  /-- A status request settles. -/
  | statusSettled (i : Nat) (o : StatusOutcome)
  /-- A scheduled poll comes due. -/
  | timerFired (i : Nat)

/-- One event; `none` when the event names no outstanding request or timer of its
kind.  Selections and uploads are taken in every state: neither the `disabled`
attributes of the rendered buttons nor the unmounting after a render that throws are
consulted, so the runs include every one the rendered page allows. -/
def step (eng : Engine) (c : Config) : Event → Option Config
  | .selectFile selectedFile =>
    let r := handleFileChange c.ui selectedFile
    some { ui := r.1, pending := c.pending ++ r.2 }
  | .upload =>
    let r := handleUpload c.ui
    some { ui := r.1, pending := c.pending ++ r.2 }
  | .uploadSettled i o =>
    match c.pending[i]? with
    | some (.fetchPost _ _) =>
      let r := handleUploadResume eng c.ui o
      some { ui := r.1, pending := c.pending.eraseIdx i ++ r.2 }
    | _ => none
  | .statusSettled i o =>
    match c.pending[i]? with
    | some (.fetchGet _ taskId) =>
      let r := checkTaskStatusResume eng c.ui taskId o
      some { ui := r.1, pending := c.pending.eraseIdx i ++ r.2 }
    | _ => none
  | .timerFired i =>
    match c.pending[i]? with
    | some (.setTimeout taskId _) =>
      let r := checkTaskStatus c.ui taskId
      some { ui := r.1, pending := c.pending.eraseIdx i ++ r.2 }
    | _ => none

/-- A sequence of events, from left to right. -/
def run (eng : Engine) (c : Config) : List Event → Option Config
  | [] => some c
  | ev :: rest =>
    match step eng c ev with
    | some c1 => run eng c1 rest
    | none => none

/-! ## Reading effects and classifying status responses -/

/-- The URL of a request, where the template literal of a status request is filled
with a string task id (the conversion of other task ids to text is not modelled). -/
def Effect.url? : Effect → Option String
  | .fetchPost url _ => some url
  | .fetchGet urlPrefix (.json (.str t)) => some (urlPrefix ++ t)
  | .fetchGet _ _ => none
  | .setTimeout _ _ => none

/-- Whether a settled status request reports `status === 'completed'`. -/
def StatusOutcome.isCompleted : StatusOutcome → Bool
  | .failed => false
  | .data d => (d.field "status").strictEqStr "completed"

/-- Whether a settled status request is taken as pending, so that the polling goes
on: the body parsed to a value other than `null` whose `status` is neither
`'completed'` nor `'error'` and whose `elapsed_time` converts to a Number (every
number, string, boolean, `null` and absent field does). -/
def StatusOutcome.isPending : StatusOutcome → Bool
  | .failed => false
  | .data .null => false
  | .data d =>
    !((d.field "status").strictEqStr "completed") && !((d.field "status").strictEqStr "error")
      && !((d.field "elapsed_time").conversionThrows)

/-- Whether a status response, when it is a pending one, carries an `elapsed_time`
that is a number and at least zero. -/
def StatusOutcome.elapsedNonneg : StatusOutcome → Bool
  | .failed => true
  | .data d =>
    if (StatusOutcome.data d).isPending then
      match d.field "elapsed_time" with
      | .json (.num x) => F64.le (F64.ofNat 0) x
      | _ => false
    else true

/-- `StatusOutcome.elapsedNonneg` of the outcome an event carries; true of every other event. -/
def Event.elapsedNonneg : Event → Bool
  | .statusSettled _ o => o.elapsedNonneg
  | _ => true

/-- Whether the event is a status request settling with `status === 'completed'`. -/
def Event.isCompleted : Event → Bool
  | .statusSettled _ o => o.isCompleted
  | _ => false

/-- Whether a settled upload request is one of the failures: a rejected request, a
response that is not `ok`, a body that does not parse, or a body without a truthy
`task_id` or with one that does not convert to text. -/
def UploadOutcome.isFailure : UploadOutcome → Bool
  | .rejected _ => true
  | .response false _ => true
  | .response true (.error _) => true
  | .response true (.ok d) =>
    !(d.field "task_id").truthy || (d.field "task_id").conversionThrows

/-- A Number that is at least zero: `+0`, `-0`, a positive finite value or `+∞`. -/
def F64.NonNeg : F64 → Prop
  | .nan => False
  | .inf neg => neg = false
  | .fin neg m _ => neg = false ∨ m = 0

/-- A Number equal to a natural number that is at most `n`. -/
def F64.IsNatUpTo (n : Nat) (x : F64) : Prop :=
  ∃ k : Nat, k ≤ n ∧ x.toInt? = some (k : Int)

/-- The events of polling through the pending responses `ds`: each response settles
the outstanding status request, then the poll it scheduled comes due. -/
def pendingPolls (ds : List Json) : List Event :=
  ds.flatMap (fun d => [Event.statusSettled 0 (StatusOutcome.data d), Event.timerFired 0])

/-! ## The engine V8 -/

/-- Whether the character is a StrWhiteSpaceChar: white space (TAB, VT, FF, ZWNBSP
and the space separators of Unicode) or a line terminator (LF, CR, LS, PS). -/
def isStrWhiteSpaceChar (c : Char) : Bool :=
  let n := c.toNat
  n == 0x09 || n == 0x0A || n == 0x0B || n == 0x0C || n == 0x0D || n == 0x20 || n == 0xA0
    || n == 0x1680 || (0x2000 ≤ n && n ≤ 0x200A) || n == 0x2028 || n == 0x2029
    || n == 0x202F || n == 0x205F || n == 0x3000 || n == 0xFEFF

/-- The value of a digit in the given base. -/
def digitValue? (base : Nat) (c : Char) : Option Nat :=
  let n := c.toNat
  let v : Option Nat :=
    if 48 ≤ n && n ≤ 57 then some (n - 48)
    else if 97 ≤ n && n ≤ 102 then some (n - 87)
    else if 65 ≤ n && n ≤ 70 then some (n - 55)
    else none
  match v with
  | some d => if d < base then some d else none
  | none => none

/-- The value of a sequence of digits read from the left onto `acc`. -/
def digitsValueFrom? (base : Nat) (acc : Nat) : List Char → Option Nat
  | [] => some acc
  | c :: cs =>
    match digitValue? base c with
    | some d => digitsValueFrom? base (acc * base + d) cs
    | none => none

/-- The value of a sequence of one digit or more. -/
def digitsValue? (base : Nat) : List Char → Option Nat
  | [] => none
  | cs => digitsValueFrom? base 0 cs

/-- The exponent of an ExponentPart, 0 for none. -/
def exponentPart? : List Char → Option Int
  | [] => some 0
  | c :: rest =>
    if c == 'e' || c == 'E' then
      match rest with
      | '+' :: ds => (digitsValue? 10 ds).map (fun v => (v : Int))
      | '-' :: ds => (digitsValue? 10 ds).map (fun v => -(v : Int))
      | ds => (digitsValue? 10 ds).map (fun v => (v : Int))
    else none

/-- A StrUnsignedDecimalLiteral other than `Infinity`, as the pair `(m, e)` of the
value `m * 10^e`. -/
def unsignedDecimal? (cs : List Char) : Option (Nat × Int) :=
  let intPart := cs.takeWhile Char.isDigit
  let r1 := cs.dropWhile Char.isDigit
  let fracPart := match r1 with
    | '.' :: r => r.takeWhile Char.isDigit
    | _ => []
  let r2 := match r1 with
    | '.' :: r => r.dropWhile Char.isDigit
    | _ => r1
  if intPart.isEmpty && fracPart.isEmpty then none
  else
    match digitsValue? 10 (intPart ++ fracPart), exponentPart? r2 with
    | some m, some e => some (m, e - (fracPart.length : Int))
    | _, _ => none

/-- A StrDecimalLiteral. -/
def strDecimalLiteral (cs : List Char) : F64 :=
  let neg := match cs with
    | '-' :: _ => true
    | _ => false
  let body := match cs with
    | '+' :: r => r
    | '-' :: r => r
    | r => r
  if body = "Infinity".toList then F64.inf neg
  else
    match unsignedDecimal? body with
    | some (m, e) => F64.roundQ neg (m * 10 ^ e.toNat) (10 ^ (-e).toNat)
    | none => F64.nan

/-- A NonDecimalIntegerLiteral, after its two-character marker. -/
def nonDecimalLiteral (base : Nat) (ds : List Char) : F64 :=
  match digitsValue? base ds with
  | some v => F64.roundQ false v 1
  | none => F64.nan

/-- StringToNumber (ECMAScript 7.1.4.1.1): white space is stripped at both ends; the
empty text is `+0`; a text that is a numeric literal is the Number nearest to its
value, whatever the number of its digits; every other text is NaN. -/
def stringToNumber (s : String) : F64 :=
  let cs := ((s.toList.dropWhile isStrWhiteSpaceChar).reverse.dropWhile isStrWhiteSpaceChar).reverse
  match cs with
  | [] => F64.ofNat 0
  | '0' :: 'x' :: ds => nonDecimalLiteral 16 ds
  | '0' :: 'X' :: ds => nonDecimalLiteral 16 ds
  | '0' :: 'o' :: ds => nonDecimalLiteral 8 ds
  | '0' :: 'O' :: ds => nonDecimalLiteral 8 ds
  | '0' :: 'b' :: ds => nonDecimalLiteral 2 ds
  | '0' :: 'B' :: ds => nonDecimalLiteral 2 ds
  | _ => strDecimalLiteral cs

/-- The engine V8: its StringToNumber, and the message of its TypeError for a
property read on `null`. -/
def Engine.v8 : Engine :=
  { stringToNumber := PaperUploader.stringToNumber
    nullReadMessage := fun key => "Cannot read properties of null (reading \x27" ++ key ++ "\x27)" }

/-! ## Concrete inputs -/

/-- A PDF file. -/
def samplePdf : File := { name := "paper.pdf", type := "application/pdf" }

/-- A file that is not a PDF. -/
def sampleText : File := { name := "notes.txt", type := "text/plain" }

/-- A state with a file selected and an upload in flight, a poll having reported progress. -/
def busyState : State :=
  { file := some samplePdf, isProcessing := true, error := .null, result := .null,
    progress := F64.ofNat 50 }

/-- The body `{"task_id": ""}`. -/
def emptyTaskIdBody : Json := Json.obj [("task_id", Json.str "")]

/-- The state in which `samplePdf` is selected and its upload has just been started. -/
def uploadingState : State :=
  { file := some samplePdf, isProcessing := true, error := .null, result := .null,
    progress := F64.ofNat 0 }

/-- The pending response `{"status": "pending", "elapsed_time": n}`. -/
def pendingData (n : Nat) : Json :=
  Json.obj [("status", Json.str "pending"), ("elapsed_time", Json.num (F64.ofNat n))]

/-- The pending response `{"status": "pending", "elapsed_time": -60}`. -/
def negativeElapsedData : Json :=
  Json.obj [("status", Json.str "pending"), ("elapsed_time", Json.num (F64.fin true 60 0))]

/-- The response `{"status": "completed", "result": {"x": 1}}`. -/
def completedData : Json :=
  Json.obj [("status", Json.str "completed"),
    ("result", Json.obj [("x", Json.num (F64.ofNat 1))])]

/-- The response `{"status": "error", "error": {"code": 1}}`. -/
def objectErrorData : Json :=
  Json.obj [("status", Json.str "error"),
    ("error", Json.obj [("code", Json.num (F64.ofNat 1))])]

/-- The state after the upload of `samplePdf` has ended with `objectErrorData`. -/
def objectErrorState : State :=
  { file := some samplePdf, isProcessing := false,
    error := JsVal.json (Json.obj [("code", Json.num (F64.ofNat 1))]),
    result := .null, progress := F64.ofNat 0 }

/-- A PDF is selected, uploaded, and the upload answered with `{"task_id": "abc"}`. -/
def startEvents : List Event :=
  [Event.selectFile (some samplePdf), Event.upload,
   Event.uploadSettled 0
     (UploadOutcome.response true (Except.ok (Json.obj [("task_id", Json.str "abc")])))]

/-! ## Facts about Numbers -/

theorem F64.ite_ne_nan {c : Prop} [Decidable c] {a b : F64} (ha : a ≠ F64.nan)
    (hb : b ≠ F64.nan) : (if c then a else b) ≠ F64.nan := by
  split_ifs <;> assumption

theorem F64.roundQ_ne_nan (neg : Bool) (n d : Nat) : F64.roundQ neg n d ≠ F64.nan := by
  unfold F64.roundQ
  refine F64.ite_ne_nan (by simp) ?_
  dsimp only
  exact F64.ite_ne_nan (by simp) (by simp)

theorem F64.div_ne_nan (x : F64) (k : Nat) (hx : x ≠ F64.nan) (hk : k ≠ 0) :
    F64.div x (F64.ofNat k) ≠ F64.nan := by
  cases x with
  | nan => exact absurd rfl hx
  | inf a => simp [F64.div, F64.ofNat]
  | fin a m e =>
    simp only [F64.div, F64.ofNat, if_neg hk]
    exact F64.roundQ_ne_nan _ _ _

theorem F64.mul_ne_nan (x : F64) (k : Nat) (hx : x ≠ F64.nan) (hk : k ≠ 0) :
    F64.mul x (F64.ofNat k) ≠ F64.nan := by
  cases x with
  | nan => exact absurd rfl hx
  | inf a => simp [F64.mul, F64.ofNat, hk]
  | fin a m e =>
    simp only [F64.mul, F64.ofNat]
    exact F64.roundQ_ne_nan _ _ _

theorem Math.round_ne_nan (x : F64) (hx : x ≠ F64.nan) : Math.round x ≠ F64.nan := by
  cases x with
  | nan => exact absurd rfl hx
  | inf a => simp [Math.round]
  | fin a m e =>
    simp only [Math.round]
    split_ifs <;> simp

/-- Below 100: the smaller of a Number and 95. -/
theorem min_95_lt_100 (z : F64) (hz : z ≠ F64.nan) :
    F64.lt (Math.min z (F64.ofNat 95)) (F64.ofNat 100) = true := by
  cases z with
  | nan => exact absurd rfl hz
  | inf a => cases a <;> decide
  | fin a m e =>
    have hmin : Math.min (F64.fin a m e) (F64.ofNat 95) =
        if F64.lt (F64.ofNat 95) (F64.fin a m e) then F64.ofNat 95 else F64.fin a m e := by
      simp [Math.min, F64.ofNat, F64.isZero]
    rw [hmin]
    split_ifs with h
    · decide
    · simp only [F64.lt, F64.ofNat, decide_eq_true_eq, not_lt] at h ⊢
      rw [min_comm] at h
      have hp : (0 : Int) < 2 ^ (0 - min e 0).toNat := by positivity
      simp only [F64.scaled] at h ⊢
      simp only [if_false, Bool.false_eq_true] at h ⊢
      push_cast at h ⊢
      linarith

theorem F64.nonNeg_of_le (x : F64) (h : F64.le (F64.ofNat 0) x = true) : x.NonNeg := by
  cases x with
  | nan => simp [F64.le, F64.ofNat] at h
  | inf a => simpa [F64.le, F64.ofNat, F64.NonNeg] using h
  | fin a m e =>
    cases a with
    | false => exact Or.inl rfl
    | true =>
      right
      simp only [F64.le, F64.ofNat, F64.scaled, decide_eq_true_eq, if_true,
        Bool.false_eq_true, if_false] at h
      have hp : (0 : Int) < 2 ^ (e - min 0 e).toNat := by positivity
      have hm : (0 : Int) ≤ (m : Int) := Int.natCast_nonneg m
      push_cast at h
      have : (m : Int) * 2 ^ (e - min 0 e).toNat ≤ 0 := by linarith
      have h0 : (m : Int) ≤ 0 := by
        by_contra hc
        push_neg at hc
        have := mul_pos hc hp
        linarith
      omega

theorem F64.ite_nonNeg {c : Prop} [Decidable c] {a b : F64} (ha : a.NonNeg) (hb : b.NonNeg) :
    (if c then a else b).NonNeg := by
  split_ifs <;> assumption

theorem F64.roundQ_nonNeg (neg : Bool) (n d : Nat) (h : neg = false ∨ n = 0) :
    (F64.roundQ neg n d).NonNeg := by
  unfold F64.roundQ
  rcases h with h | h
  · subst h
    refine F64.ite_nonNeg (Or.inl rfl) ?_
    dsimp only
    exact F64.ite_nonNeg (by simp [F64.NonNeg]) (Or.inl rfl)
  · rw [if_pos h]
    exact Or.inr rfl

theorem F64.div_nonNeg (x : F64) (k : Nat) (hx : x.NonNeg) (hk : k ≠ 0) :
    (F64.div x (F64.ofNat k)).NonNeg := by
  cases x with
  | nan => exact hx
  | inf a =>
    simp only [F64.NonNeg] at hx
    subst hx
    simp [F64.div, F64.ofNat, F64.NonNeg]
  | fin a m e =>
    simp only [F64.div, F64.ofNat, if_neg hk, Bool.xor_false]
    apply F64.roundQ_nonNeg
    rcases hx with h | h
    · exact Or.inl h
    · exact Or.inr (by simp [h])

theorem F64.mul_nonNeg (x : F64) (k : Nat) (hx : x.NonNeg) (hk : k ≠ 0) :
    (F64.mul x (F64.ofNat k)).NonNeg := by
  cases x with
  | nan => exact hx
  | inf a =>
    simp only [F64.NonNeg] at hx
    subst hx
    simp [F64.mul, F64.ofNat, F64.NonNeg, hk]
  | fin a m e =>
    simp only [F64.mul, F64.ofNat, Bool.xor_false]
    apply F64.roundQ_nonNeg
    rcases hx with h | h
    · exact Or.inl h
    · exact Or.inr (by simp [h])

/-- `Math.round` of a Number that is at least zero is `+∞` or a natural number. -/
theorem round_nonNeg (x : F64) (hx : x.NonNeg) :
    Math.round x = F64.inf false ∨
      ∃ (neg : Bool) (m : Nat) (e : Int),
        Math.round x = F64.fin neg m e ∧ 0 ≤ e ∧ (neg = false ∨ m = 0) := by
  cases x with
  | nan => exact absurd hx (by simp [F64.NonNeg])
  | inf a =>
    simp only [F64.NonNeg] at hx
    subst hx
    exact Or.inl rfl
  | fin a m e =>
    right
    by_cases he : 0 ≤ e
    · exact ⟨a, m, e, by simp [Math.round, he], he, hx⟩
    · rcases hx with h | h
      · subst h
        exact ⟨false, (2 * m + 2 ^ (-e).toNat) / 2 ^ ((-e).toNat + 1), 0,
          by simp [Math.round, he], le_refl _, Or.inl rfl⟩
      · subst h
        cases a with
        | false =>
          exact ⟨false, (2 * 0 + 2 ^ (-e).toNat) / 2 ^ ((-e).toNat + 1), 0,
            by simp [Math.round, he], le_refl _, Or.inl rfl⟩
        | true =>
          refine ⟨true, 0, 0, ?_, le_refl _, Or.inr rfl⟩
          simp [Math.round, he]

/-- The smaller of such a Number and 95 is a natural number up to 95. -/
theorem min_95_isNatUpTo (z : F64)
    (hz : z = F64.inf false ∨
      ∃ (neg : Bool) (m : Nat) (e : Int), z = F64.fin neg m e ∧ 0 ≤ e ∧ (neg = false ∨ m = 0)) :
    F64.IsNatUpTo 95 (Math.min z (F64.ofNat 95)) := by
  have h95 : F64.IsNatUpTo 95 (F64.ofNat 95) := ⟨95, le_refl _, by decide⟩
  rcases hz with hz | ⟨neg, m, e, hz, he, hs⟩
  · subst hz
    exact h95
  · subst hz
    have hmin : Math.min (F64.fin neg m e) (F64.ofNat 95) =
        if F64.lt (F64.ofNat 95) (F64.fin neg m e) then F64.ofNat 95 else F64.fin neg m e := by
      simp [Math.min, F64.ofNat, F64.isZero]
    rw [hmin]
    split_ifs with h
    · exact h95
    · simp only [F64.lt, F64.ofNat, decide_eq_true_eq, not_lt, F64.scaled, Bool.false_eq_true,
        if_false, min_eq_left he, sub_zero, Int.toNat_zero, pow_zero, mul_one] at h
      rcases hs with hs | hs
      · subst hs
        simp only [Bool.false_eq_true, if_false] at h
        refine ⟨m * 2 ^ e.toNat, ?_, ?_⟩
        · have : ((m * 2 ^ e.toNat : Nat) : Int) ≤ 95 := by push_cast; exact_mod_cast h
          exact_mod_cast this
        · simp [F64.toInt?, he]
      · subst hs
        refine ⟨0, by omega, ?_⟩
        simp [F64.toInt?, he]

/-- The progress estimate from a numeric `elapsed_time` that is at least zero is a
natural number up to 95. -/
theorem pendingProgress_isNatUpTo (eng : Engine) (x : F64)
    (h : F64.le (F64.ofNat 0) x = true) :
    F64.IsNatUpTo 95 (pendingProgress eng (JsVal.json (Json.num x))) := by
  unfold pendingProgress
  apply min_95_isNatUpTo
  apply round_nonNeg
  apply F64.mul_nonNeg _ _ _ (by decide)
  apply F64.div_nonNeg _ _ _ (by decide)
  exact F64.nonNeg_of_le x h

/-- The estimate is computed in binary64: for `elapsed_time = 69` the product
`(69 / 120) * 100` is `57.49999999999999`, and the estimate 57. -/
theorem pendingProgress_69 (eng : Engine) :
    F64.mul (F64.div (F64.ofNat 69) (F64.ofNat 120)) (F64.ofNat 100)
        = F64.fin false 8092405580431359 (-47)
      ∧ pendingProgress eng (JsVal.json (Json.num (F64.ofNat 69))) = F64.ofNat 57 := by
  refine ⟨by decide, ?_⟩
  show Math.min (Math.round (F64.mul (F64.div (F64.ofNat 69) (F64.ofNat 120)) (F64.ofNat 100)))
    (F64.ofNat 95) = F64.ofNat 57
  decide

/-- The conversions of V8 on values that are not numbers: the text `"60"` and the
array `[60]` convert to 60, an object to NaN, and an object with a member `toString`
does not convert. -/
theorem toNumber_v8_examples :
    (toNumber Engine.v8 (JsVal.json (Json.str "60"))).toInt? = some 60
      ∧ (toNumber Engine.v8 (JsVal.json (Json.arr [Json.num (F64.ofNat 60)]))).toInt? = some 60
      ∧ toNumber Engine.v8 (JsVal.json (Json.obj [])) = F64.nan
      ∧ (JsVal.json (Json.obj [("toString", Json.null)])).conversionThrows = true := by
  decide

/-! ## Facts about the poll step -/

/-- A `status` that is `'error'` is not `'completed'`. -/
theorem JsVal.not_completed_of_error (v : JsVal) (h : v.strictEqStr "error" = true) :
    v.strictEqStr "completed" = false := by
  unfold JsVal.strictEqStr at h ⊢
  split at h
  · rename_i t
    have ht : t = "error" := by simpa using h
    subst ht
    decide
  · simp at h

/-- The status request is sent for a task id that converts to text. -/
theorem checkTaskStatus_of_converts (s : State) (taskId : JsVal)
    (h : taskId.conversionThrows = false) :
    checkTaskStatus s taskId = (s, [Effect.fetchGet statusUrlPrefix taskId]) := by
  simp only [checkTaskStatus, h, Bool.false_eq_true, if_false]

/-- The poll step on a pending response. -/
theorem checkTaskStatusResume_of_isPending (eng : Engine) (s : State) (taskId : JsVal)
    (d : Json) (h : (StatusOutcome.data d).isPending = true) :
    checkTaskStatusResume eng s taskId (StatusOutcome.data d) =
      ({ s with progress := pendingProgress eng (d.field "elapsed_time") },
       [Effect.setTimeout taskId 2000]) := by
  cases d <;>
    first
    | (simp [StatusOutcome.isPending] at h; done)
    | (simp only [StatusOutcome.isPending, Bool.and_eq_true, Bool.not_eq_true'] at h
       simp only [checkTaskStatusResume, h.1.1, h.1.2, h.2, Bool.false_eq_true, if_false])

theorem run_cons_of_step (eng : Engine) (c c1 : Config) (ev : Event) (rest : List Event)
    (h : step eng c ev = some c1) : run eng c (ev :: rest) = run eng c1 rest := by
  simp only [run, h]

theorem pendingPolls_cons (d : Json) (ds : List Json) :
    pendingPolls (d :: ds) =
      Event.statusSettled 0 (StatusOutcome.data d) :: Event.timerFired 0 :: pendingPolls ds := by
  simp [pendingPolls]

/-- Polling through pending responses changes `progress` only and leaves the status
request of the task outstanding. -/
theorem run_pendingPolls (eng : Engine) (taskId : JsVal) (rest : List Event)
    (htid : taskId.conversionThrows = false) :
    ∀ (ds : List Json) (s : State),
      (∀ d ∈ ds, (StatusOutcome.data d).isPending = true) →
      ∃ p : F64,
        run eng { ui := s, pending := [Effect.fetchGet statusUrlPrefix taskId] }
            (pendingPolls ds ++ rest) =
          run eng { ui := { s with progress := p },
                    pending := [Effect.fetchGet statusUrlPrefix taskId] } rest := by
  intro ds
  induction ds with
  | nil => intro s _; exact ⟨s.progress, rfl⟩
  | cons d ds ih =>
    intro s h
    have hd : (StatusOutcome.data d).isPending = true := h d (List.mem_cons_self _ _)
    obtain ⟨p, hp⟩ := ih { s with progress := pendingProgress eng (d.field "elapsed_time") }
      (fun x hx => h x (List.mem_cons_of_mem _ hx))
    refine ⟨p, ?_⟩
    have h1 : step eng { ui := s, pending := [Effect.fetchGet statusUrlPrefix taskId] }
        (Event.statusSettled 0 (StatusOutcome.data d)) =
        some { ui := { s with progress := pendingProgress eng (d.field "elapsed_time") },
               pending := [Effect.setTimeout taskId 2000] } := by
      simp only [step, List.getElem?_cons_zero,
        checkTaskStatusResume_of_isPending eng s taskId d hd, List.eraseIdx_cons_zero,
        List.nil_append]
    have h2 : step eng
        { ui := { s with progress := pendingProgress eng (d.field "elapsed_time") },
          pending := [Effect.setTimeout taskId 2000] } (Event.timerFired 0) =
        some { ui := { s with progress := pendingProgress eng (d.field "elapsed_time") },
               pending := [Effect.fetchGet statusUrlPrefix taskId] } := by
      simp only [step, List.getElem?_cons_zero, checkTaskStatus_of_converts _ taskId htid,
        List.eraseIdx_cons_zero, List.nil_append]
    rw [pendingPolls_cons, List.cons_append, List.cons_append,
      run_cons_of_step eng _ _ _ _ h1, run_cons_of_step eng _ _ _ _ h2]
    exact hp

/-! ## Facts about `progress` along a run -/

theorem handleFileChange_progress (s : State) (selectedFile : Option File) :
    (handleFileChange s selectedFile).1.progress = s.progress := by
  unfold handleFileChange
  split
  · split <;> rfl
  · rfl

theorem handleUpload_progress (s : State) :
    (handleUpload s).1.progress = s.progress ∨ (handleUpload s).1.progress = F64.ofNat 0 := by
  unfold handleUpload
  split
  · exact Or.inl rfl
  · exact Or.inr rfl

theorem checkTaskStatus_progress (s : State) (taskId : JsVal) :
    (checkTaskStatus s taskId).1.progress = s.progress := by
  unfold checkTaskStatus
  split <;> rfl

theorem handleUploadResume_progress (eng : Engine) (s : State) (o : UploadOutcome) :
    (handleUploadResume eng s o).1.progress = s.progress := by
  unfold handleUploadResume
  split
  · rfl
  · rfl
  · rfl
  · rfl
  · split
    · exact checkTaskStatus_progress _ _
    · rfl

/-- What a poll step leaves in `progress`: the value it had, 100 after a completed
response, or a natural number up to 95. -/
theorem checkTaskStatusResume_progress (eng : Engine) (s : State) (taskId : JsVal)
    (o : StatusOutcome) (h : o.elapsedNonneg = true) :
    (checkTaskStatusResume eng s taskId o).1.progress = s.progress
      ∨ ((checkTaskStatusResume eng s taskId o).1.progress = F64.ofNat 100
          ∧ o.isCompleted = true)
      ∨ F64.IsNatUpTo 95 (checkTaskStatusResume eng s taskId o).1.progress := by
  cases o with
  | failed => exact Or.inl rfl
  | data d =>
    by_cases hp : (StatusOutcome.data d).isPending = true
    · right; right
      rw [checkTaskStatusResume_of_isPending eng s taskId d hp]
      simp only [StatusOutcome.elapsedNonneg, hp, if_true] at h
      split at h
      · rename_i x hx
        rw [hx]
        exact pendingProgress_isNatUpTo eng x h
      · exact absurd h (by simp)
    · cases d <;>
        first
        | exact Or.inl rfl
        | (simp only [StatusOutcome.isPending, Bool.and_eq_true, Bool.not_eq_true',
              not_and, Bool.not_eq_false] at hp
           simp only [checkTaskStatusResume, StatusOutcome.isCompleted]
           split_ifs with h1 h2 h3
           · exact Or.inr (Or.inl ⟨rfl, h1⟩)
           · exact Or.inl rfl
           · exact Or.inl rfl
           · exact absurd (hp ⟨by simpa using h1, by simpa using h2⟩) h3)

theorem isNatUpTo_zero : F64.IsNatUpTo 95 (F64.ofNat 0) := ⟨0, by omega, by decide⟩

/-- One event keeps the invariant: `progress` is a natural number up to 95, or it is
100 and a completed response has been seen. -/
theorem step_progress (eng : Engine) (c c1 : Config) (ev : Event) (P : Prop)
    (hstep : step eng c ev = some c1) (hev : ev.elapsedNonneg = true)
    (hinv : F64.IsNatUpTo 95 c.ui.progress ∨ (c.ui.progress = F64.ofNat 100 ∧ P)) :
    F64.IsNatUpTo 95 c1.ui.progress
      ∨ (c1.ui.progress = F64.ofNat 100 ∧ (P ∨ ev.isCompleted = true)) := by
  have keep : c1.ui.progress = c.ui.progress →
      F64.IsNatUpTo 95 c1.ui.progress
        ∨ (c1.ui.progress = F64.ofNat 100 ∧ (P ∨ ev.isCompleted = true)) := by
    intro h
    rw [h]
    rcases hinv with h1 | ⟨h1, h2⟩
    · exact Or.inl h1
    · exact Or.inr ⟨h1, Or.inl h2⟩
  cases ev with
  | selectFile f =>
    simp only [step, Option.some.injEq] at hstep
    subst hstep
    exact keep (handleFileChange_progress _ _)
  | upload =>
    simp only [step, Option.some.injEq] at hstep
    subst hstep
    rcases handleUpload_progress c.ui with h | h
    · exact keep h
    · left
      show F64.IsNatUpTo 95 (handleUpload c.ui).1.progress
      rw [h]
      exact isNatUpTo_zero
  | uploadSettled i o =>
    simp only [step] at hstep
    split at hstep
    · simp only [Option.some.injEq] at hstep
      subst hstep
      exact keep (handleUploadResume_progress _ _ _)
    · exact absurd hstep (by simp)
  | statusSettled i o =>
    simp only [step] at hstep
    split at hstep
    · rename_i pre taskId hget
      simp only [Option.some.injEq] at hstep
      subst hstep
      rcases checkTaskStatusResume_progress eng c.ui taskId o hev with h | ⟨h, hc⟩ | h
      · exact keep h
      · exact Or.inr ⟨h, Or.inr hc⟩
      · exact Or.inl h
    · exact absurd hstep (by simp)
  | timerFired i =>
    simp only [step] at hstep
    split at hstep
    · simp only [Option.some.injEq] at hstep
      subst hstep
      exact keep (checkTaskStatus_progress _ _)
    · exact absurd hstep (by simp)

/-- The invariant along a run. -/
theorem run_progress (eng : Engine) :
    ∀ (evs : List Event) (c c1 : Config) (P : Prop),
      run eng c evs = some c1 → (∀ ev ∈ evs, ev.elapsedNonneg = true) →
      (F64.IsNatUpTo 95 c.ui.progress ∨ (c.ui.progress = F64.ofNat 100 ∧ P)) →
      F64.IsNatUpTo 95 c1.ui.progress
        ∨ (c1.ui.progress = F64.ofNat 100 ∧ (P ∨ ∃ ev ∈ evs, ev.isCompleted = true)) := by
  intro evs
  induction evs with
  | nil =>
    intro c c1 P hrun _ hinv
    simp only [run, Option.some.injEq] at hrun
    subst hrun
    rcases hinv with h | ⟨h, hP⟩
    · exact Or.inl h
    · exact Or.inr ⟨h, Or.inl hP⟩
  | cons ev rest ih =>
    intro c c1 P hrun hw hinv
    simp only [run] at hrun
    split at hrun
    · rename_i c2 hstep
      have h2 := step_progress eng c c2 ev P hstep (hw ev (List.mem_cons_self _ _)) hinv
      rcases ih c2 c1 (P ∨ ev.isCompleted = true) hrun
          (fun x hx => hw x (List.mem_cons_of_mem _ hx)) h2 with h | ⟨h, hP⟩
      · exact Or.inl h
      · refine Or.inr ⟨h, ?_⟩
        rcases hP with (hP | hP) | ⟨x, hx, hxc⟩
        · exact Or.inl hP
        · exact Or.inr ⟨ev, List.mem_cons_self _ _, hP⟩
        · exact Or.inr ⟨x, List.mem_cons_of_mem _ hx, hxc⟩
    · exact absurd hrun (by simp)

/-! ## Facts about the failure paths -/

theorem handleUploadResume_of_isFailure (eng : Engine) (s : State) (o : UploadOutcome)
    (h : o.isFailure = true) :
    ∃ m : String, handleUploadResume eng s o =
      ({ s with isProcessing := false, error := JsVal.str m }, []) := by
  cases o with
  | rejected m => exact ⟨m, rfl⟩
  | response ok body =>
    cases ok with
    | false => exact ⟨"Failed to upload file", rfl⟩
    | true =>
      cases body with
      | error m => exact ⟨m, rfl⟩
      | ok d =>
        simp only [UploadOutcome.isFailure, Bool.or_eq_true, Bool.not_eq_true'] at h
        by_cases htr : (d.field "task_id").truthy = true
        · have hth : (d.field "task_id").conversionThrows = true := by
            rcases h with h | h
            · rw [htr] at h; exact absurd h (by simp)
            · exact h
          refine ⟨"Failed to check task status", ?_⟩
          cases d <;>
            first
            | (simp [Json.field, JsVal.truthy] at htr; done)
            | (simp only [handleUploadResume, htr, if_true, checkTaskStatus, hth])
        · simp only [Bool.not_eq_true] at htr
          cases d <;>
            first
            | exact ⟨eng.nullReadMessage "task_id", rfl⟩
            | (refine ⟨"Invalid response from server", ?_⟩
               simp only [handleUploadResume, htr, Bool.false_eq_true, if_false])

theorem checkTaskStatusResume_of_error (eng : Engine) (s : State) (taskId : JsVal)
    (d : Json) (h : (d.field "status").strictEqStr "error" = true) :
    checkTaskStatusResume eng s taskId (StatusOutcome.data d) =
      ({ s with isProcessing := false, error := d.field "error" }, []) := by
  have hc := JsVal.not_completed_of_error _ h
  cases d <;>
    first
    | (simp [Json.field, JsVal.strictEqStr] at h; done)
    | (simp only [checkTaskStatusResume, h, hc, if_true, Bool.false_eq_true, if_false])

/-- A poll step that neither completes nor goes on ends the processing with an error
value and issues nothing; the value is `data.error` for a response with
`status === 'error'` and the text "Failed to check task status" otherwise. -/
theorem checkTaskStatusResume_of_failure (eng : Engine) (s : State) (taskId : JsVal)
    (o : StatusOutcome) (hp : o.isPending = false) (hc : o.isCompleted = false) :
    ∃ v : JsVal,
      checkTaskStatusResume eng s taskId o = ({ s with isProcessing := false, error := v }, [])
      ∧ (v = JsVal.str "Failed to check task status"
          ∨ ∃ d : Json, o = StatusOutcome.data d ∧ v = d.field "error") := by
  cases o with
  | failed => exact ⟨JsVal.str "Failed to check task status", rfl, Or.inl rfl⟩
  | data d =>
    by_cases hnull : d = Json.null
    · subst hnull
      exact ⟨JsVal.str "Failed to check task status", rfl, Or.inl rfl⟩
    · by_cases herr : (d.field "status").strictEqStr "error" = true
      · exact ⟨d.field "error", checkTaskStatusResume_of_error eng s taskId d herr,
          Or.inr ⟨d, rfl, rfl⟩⟩
      · refine ⟨JsVal.str "Failed to check task status", ?_, Or.inl rfl⟩
        simp only [StatusOutcome.isCompleted] at hc
        simp only [Bool.not_eq_true] at herr
        cases d <;>
          first
          | exact absurd rfl hnull
          | (simp only [StatusOutcome.isPending, hc, herr, Bool.not_false, Bool.true_and,
                Bool.not_eq_false'] at hp
             simp only [checkTaskStatusResume, hc, herr, hp, Bool.false_eq_true, if_false,
               if_true])

/-- A state whose error value React accepts as a child is rendered. -/
theorem render_of_validChild (t : State) (h : t.error.validChild = true) :
    render t = some
      { selectDisabled := t.isProcessing
        selectedName := t.file.map (fun f => f.name)
        progressShown := if t.isProcessing then some t.progress else none
        errorAlert := if t.error.truthy then some t.error else none
        resultPanel := if t.result.truthy then some t.result else none
        actionLabel := if t.isProcessing then "Processing..." else "Upload and Analyze"
        actionDisabled := t.file.isNone || t.isProcessing } := by
  simp [render, h]

/-- Rendering throws on an error value that is truthy and no valid child. -/
theorem render_of_not_validChild (t : State) (h : t.error.validChild = false) :
    render t = none := by
  have htr : t.error.truthy = true := by
    cases he : t.error with
    | undefined => rw [he] at h; simp [JsVal.validChild] at h
    | json j =>
      rw [he] at h
      cases j <;> simp_all [JsVal.validChild, Json.validChild, JsVal.truthy]
  simp [render, h, htr]

/-- With `isProcessing = false` and an error value that is a valid child, the file
picker is enabled, the action button reads "Upload and Analyze", and it is enabled
exactly when a file is selected. -/
theorem render_idle (t : State) (h : t.isProcessing = false)
    (hv : t.error.validChild = true) :
    ∃ v : View, render t = some v ∧ v.selectDisabled = false ∧
      v.actionLabel = "Upload and Analyze" ∧
      (v.actionDisabled = false ↔ ∃ f : File, t.file = some f) := by
  refine ⟨_, render_of_validChild t hv, by simp [h], by simp [h], ?_⟩
  cases hf : t.file <;> simp [h]

/-! ## File selection -/

/-- C1: `handleFileChange` is decided by the media type of the candidate alone.  From
every state, a candidate of type `application/pdf` is stored and the error cleared;
every other candidate (and an empty selection) clears the stored file and sets the
error "Please select a PDF file".  `isProcessing`, `result` and `progress` keep their
values and no request is issued. -/
theorem handleFileChange_characterised (s : State) (candidate : File) :
    handleFileChange s (some candidate) =
        (if candidate.type = "application/pdf" then
          ({ file := some candidate, isProcessing := s.isProcessing, error := JsVal.null,
             result := s.result, progress := s.progress }, [])
        else
          ({ file := none, isProcessing := s.isProcessing,
             error := JsVal.str "Please select a PDF file",
             result := s.result, progress := s.progress }, []))
      ∧ handleFileChange s none =
          ({ file := none, isProcessing := s.isProcessing,
             error := JsVal.str "Please select a PDF file",
             result := s.result, progress := s.progress }, []) := by
  exact ⟨rfl, rfl⟩

/-! ## Upload -/

/-- C2: with no file selected, `handleUpload` issues no request, sets the error
"Please select a file first" and leaves `file`, `isProcessing`, `result` and
`progress` as they were. -/
theorem handleUpload_no_file (s : State) (h : s.file = none) :
    handleUpload s =
      ({ file := none, isProcessing := s.isProcessing,
         error := JsVal.str "Please select a file first",
         result := s.result, progress := s.progress }, []) := by
  unfold handleUpload
  rw [h]

/-- C2 at the initial state. -/
theorem handleUpload_no_file_witness :
    initialState.file = none ∧
    handleUpload initialState =
      ({ file := none, isProcessing := false, error := JsVal.str "Please select a file first",
         result := JsVal.null, progress := F64.ofNat 0 }, []) :=
  ⟨rfl, handleUpload_no_file initialState rfl⟩

/-- C3, as stated, fails: in `busyState` a file is selected and an upload is in
flight, yet `handleUpload` clears the error instead of setting "Please select a file
first", resets `progress` from 50 to 0 and issues a POST. -/
theorem handleUpload_in_flight_counterexample :
    busyState.isProcessing = true ∧ busyState.file = some samplePdf ∧
    (handleUpload busyState).1.error = JsVal.null ∧
    (handleUpload busyState).1.error ≠ JsVal.str "Please select a file first" ∧
    busyState.progress = F64.ofNat 50 ∧
    (handleUpload busyState).1.progress = F64.ofNat 0 ∧
    (handleUpload busyState).2 = [Effect.fetchPost uploadUrl samplePdf] := by
  refine ⟨rfl, rfl, rfl, ?_, rfl, rfl, rfl⟩
  intro h
  simp [handleUpload, busyState, JsVal.null, JsVal.str] at h

/-- C3, amended: while an upload is in flight and a file is selected the rendered
action button is disabled (the component is rendered when its error value is one
React can show, and whenever it is rendered the button is disabled); `handleUpload`
itself tests the file only, so invoked in such a state it starts an upload as from any
state with a file: `isProcessing = true`, error and result cleared, `progress = 0`, one
POST of the selected file.  It sets "Please select a file first" only when no file is
selected. -/
theorem handleUpload_in_flight (s : State) (f : File) (hf : s.file = some f)
    (hp : s.isProcessing = true) :
    (s.error.validChild = true → ∃ v : View, render s = some v ∧ v.actionDisabled = true) ∧
    (∀ v : View, render s = some v → v.actionDisabled = true) ∧
    handleUpload s =
      ({ file := some f, isProcessing := true, error := JsVal.null, result := JsVal.null,
         progress := F64.ofNat 0 }, [Effect.fetchPost uploadUrl f]) ∧
    (∀ t : State, (handleUpload t).1.error = JsVal.str "Please select a file first" →
      t.file = none) := by
  refine ⟨?_, ?_, ?_, ?_⟩
  · intro hv
    exact ⟨_, render_of_validChild s hv, by simp [hp]⟩
  · intro v hv
    unfold render at hv
    split at hv
    · exact absurd hv (by simp)
    · simp only [Option.some.injEq] at hv
      subst hv
      simp [hp]
  · unfold handleUpload
    rw [hf]
  · intro t h
    cases ht : t.file with
    | none => rfl
    | some g => simp [handleUpload, ht, JsVal.null, JsVal.str] at h

/-- C3, amended, at `busyState`. -/
theorem handleUpload_in_flight_witness :
    busyState.file = some samplePdf ∧ busyState.isProcessing = true ∧
    (∃ v : View, render busyState = some v ∧ v.actionDisabled = true) ∧
    handleUpload busyState =
      ({ file := some samplePdf, isProcessing := true, error := JsVal.null,
         result := JsVal.null, progress := F64.ofNat 0 },
       [Effect.fetchPost uploadUrl samplePdf]) :=
  ⟨rfl, rfl, (handleUpload_in_flight busyState samplePdf rfl rfl).1 rfl,
    (handleUpload_in_flight busyState samplePdf rfl rfl).2.2.1⟩

/-- C4: with a file `f` selected, `handleUpload` sets `isProcessing = true`, clears
error and result, sets `progress = 0` and issues exactly one POST of `f` to the upload
endpoint.  When that request settles, in whatever state `t` the component then is, a
response that is not `ok` gives `isProcessing = false` and the error "Failed to upload
file", and a rejected request with message `m` gives `isProcessing = false` and the
error `m`; in both cases nothing is issued (no status request) and `file`, `result`
and `progress` keep their values. -/
theorem handleUpload_failure (eng : Engine) (s : State) (f : File) (h : s.file = some f) :
    handleUpload s =
        ({ file := some f, isProcessing := true, error := JsVal.null, result := JsVal.null,
           progress := F64.ofNat 0 }, [Effect.fetchPost uploadUrl f])
      ∧ (∀ (t : State) (body : Except String Json),
          handleUploadResume eng t (UploadOutcome.response false body) =
            ({ file := t.file, isProcessing := false,
               error := JsVal.str "Failed to upload file",
               result := t.result, progress := t.progress }, []))
      ∧ (∀ (t : State) (m : String),
          handleUploadResume eng t (UploadOutcome.rejected m) =
            ({ file := t.file, isProcessing := false, error := JsVal.str m,
               result := t.result, progress := t.progress }, [])) := by
  refine ⟨?_, fun t body => rfl, fun t m => rfl⟩
  unfold handleUpload
  rw [h]

/-- C4 from the state in which `samplePdf` has just been selected. -/
theorem handleUpload_failure_witness :
    (handleFileChange initialState (some samplePdf)).1.file = some samplePdf ∧
    handleUpload (handleFileChange initialState (some samplePdf)).1 =
      ({ file := some samplePdf, isProcessing := true, error := JsVal.null,
         result := JsVal.null, progress := F64.ofNat 0 },
       [Effect.fetchPost uploadUrl samplePdf]) :=
  ⟨rfl, (handleUpload_failure Engine.v8
    (handleFileChange initialState (some samplePdf)).1 samplePdf rfl).1⟩

/-- C5, as stated, fails: the body `{"task_id": ""}` has a `task_id` field that is a
string, yet no status request is issued; the upload ends with `isProcessing = false`
and the error "Invalid response from server". -/
theorem handleUploadResume_empty_task_id_counterexample :
    emptyTaskIdBody.field "task_id" = JsVal.str "" ∧
    handleUploadResume Engine.v8 uploadingState
        (UploadOutcome.response true (Except.ok emptyTaskIdBody)) =
      ({ file := some samplePdf, isProcessing := false,
         error := JsVal.str "Invalid response from server",
         result := JsVal.null, progress := F64.ofNat 0 }, []) :=
  ⟨rfl, rfl⟩

/-- C5, amended: for an `ok` upload response whose body parses to `data`, in whatever
state `s` the component then is: if `data.task_id` is a string `t` other than the empty
one, the state is left as it is (`isProcessing` stays true) and exactly one request is
issued, the GET of `/api/v1/task-status/t`; if `data` is not `null` and `data.task_id`
is absent or the empty string, nothing is issued and the state gets
`isProcessing = false` and the error "Invalid response from server". -/
theorem handleUploadResume_task_id (eng : Engine) (s : State) (data : Json) :
    (∀ t : String, data.field "task_id" = JsVal.str t → t ≠ "" →
        handleUploadResume eng s (UploadOutcome.response true (Except.ok data)) =
          (s, [Effect.fetchGet statusUrlPrefix (JsVal.str t)])
        ∧ (Effect.fetchGet statusUrlPrefix (JsVal.str t)).url? =
            some ("http://localhost:9000/api/v1/task-status/" ++ t))
    ∧ (data ≠ Json.null →
        (data.field "task_id" = JsVal.undefined ∨ data.field "task_id" = JsVal.str "") →
        handleUploadResume eng s (UploadOutcome.response true (Except.ok data)) =
          ({ file := s.file, isProcessing := false,
             error := JsVal.str "Invalid response from server",
             result := s.result, progress := s.progress }, [])) := by
  constructor
  · intro t ht hne
    refine ⟨?_, rfl⟩
    have htr : (JsVal.str t).truthy = true := by
      simpa [JsVal.str, JsVal.truthy] using hne
    cases data <;>
      first
      | (simp [Json.field, JsVal.str] at ht; done)
      | (simp only [handleUploadResume, ht, htr, if_true]
         exact checkTaskStatus_of_converts s (JsVal.str t) rfl)
  · intro hnn hor
    have htr : (data.field "task_id").truthy = false := by
      rcases hor with h | h <;> rw [h] <;> simp [JsVal.str, JsVal.truthy]
    cases data <;>
      first
      | exact absurd rfl hnn
      | (simp only [handleUploadResume, htr]; rfl)

/-- C5, amended, at the body `{"task_id": "abc"}` and at the body `{}`. -/
theorem handleUploadResume_task_id_witness :
    (handleUploadResume Engine.v8 uploadingState
        (UploadOutcome.response true (Except.ok (Json.obj [("task_id", Json.str "abc")]))) =
      (uploadingState, [Effect.fetchGet statusUrlPrefix (JsVal.str "abc")])
      ∧ (Effect.fetchGet statusUrlPrefix (JsVal.str "abc")).url? =
          some ("http://localhost:9000/api/v1/task-status/" ++ "abc"))
    ∧ handleUploadResume Engine.v8 uploadingState
        (UploadOutcome.response true (Except.ok (Json.obj []))) =
      ({ file := some samplePdf, isProcessing := false,
         error := JsVal.str "Invalid response from server",
         result := JsVal.null, progress := F64.ofNat 0 }, []) :=
  ⟨(handleUploadResume_task_id Engine.v8 uploadingState
      (Json.obj [("task_id", Json.str "abc")])).1 "abc" rfl (by decide),
   (handleUploadResume_task_id Engine.v8 uploadingState (Json.obj [])).2
      (by simp) (Or.inl rfl)⟩

/-! ## Polling -/

/-- C6: for a status response `data` whose `status` is neither `'completed'` nor
`'error'` and whose `elapsed_time` is a number `e`, the poll step sets
`progress = Math.min(Math.round((e / 120) * 100), 95)`, which is below 100, leaves
`file`, `isProcessing`, `error` and `result` as they were, and schedules exactly one
further poll: a timer of 2000 ms for the same task id, which, when due, issues the
status request for that id (the id being one that converts to text, as the id of
every request that was sent is).  For `e = 60` the progress is 50, for `e = 180` it
is 95. -/
theorem checkTaskStatusResume_pending (eng : Engine) (s : State) (taskId : JsVal)
    (data : Json) (e : F64)
    (hc : (data.field "status").strictEqStr "completed" = false)
    (he : (data.field "status").strictEqStr "error" = false)
    (ht : data.field "elapsed_time" = JsVal.json (Json.num e)) (hn : e ≠ F64.nan) :
    checkTaskStatusResume eng s taskId (StatusOutcome.data data) =
        ({ file := s.file, isProcessing := s.isProcessing, error := s.error,
           result := s.result,
           progress := Math.min (Math.round
             (F64.mul (F64.div e (F64.ofNat 120)) (F64.ofNat 100))) (F64.ofNat 95) },
         [Effect.setTimeout taskId 2000])
      ∧ F64.lt (Math.min (Math.round
          (F64.mul (F64.div e (F64.ofNat 120)) (F64.ofNat 100))) (F64.ofNat 95))
          (F64.ofNat 100) = true
      ∧ (taskId.conversionThrows = false →
          ∀ t : State, checkTaskStatus t taskId = (t, [Effect.fetchGet statusUrlPrefix taskId]))
      ∧ Math.min (Math.round
          (F64.mul (F64.div (F64.ofNat 60) (F64.ofNat 120)) (F64.ofNat 100))) (F64.ofNat 95)
          = F64.ofNat 50
      ∧ Math.min (Math.round
          (F64.mul (F64.div (F64.ofNat 180) (F64.ofNat 120)) (F64.ofNat 100))) (F64.ofNat 95)
          = F64.ofNat 95 := by
  refine ⟨?_, ?_, fun h t => checkTaskStatus_of_converts t taskId h, by decide, by decide⟩
  · have hconv : (JsVal.json (Json.num e)).conversionThrows = false := rfl
    cases data <;>
      first
      | (simp [Json.field] at ht; done)
      | (simp only [checkTaskStatusResume, hc, he, ht, hconv, Bool.false_eq_true, if_false,
          pendingProgress, toNumber])
  · exact min_95_lt_100 _ (Math.round_ne_nan _
      (F64.mul_ne_nan _ 100 (F64.div_ne_nan _ 120 hn (by decide)) (by decide)))

/-- C6 at the response `{"status": "pending", "elapsed_time": 60}`, arriving while the
upload of `samplePdf` is in flight: the progress becomes 50. -/
theorem checkTaskStatusResume_pending_witness :
    checkTaskStatusResume Engine.v8 uploadingState (JsVal.str "abc")
        (StatusOutcome.data (pendingData 60)) =
      ({ file := some samplePdf, isProcessing := true, error := JsVal.null,
         result := JsVal.null, progress := F64.ofNat 50 },
       [Effect.setTimeout (JsVal.str "abc") 2000]) := by
  have h := (checkTaskStatusResume_pending Engine.v8 uploadingState (JsVal.str "abc")
    (pendingData 60) (F64.ofNat 60) rfl rfl rfl (by decide)).1
  rw [h]
  rfl

/-- C7: the poll step ends the polling on every outcome that is not a pending one, and
schedules nothing.  On `status === 'completed'` the state gets `isProcessing = false`,
`result = data.result` and `progress = 100`; on `status === 'error'` it gets
`isProcessing = false` and `error = data.error`, `result` keeping its value; on a
failed request or parse it gets `isProcessing = false` and the error "Failed to check
task status".  When the polling was started by an upload (a file selected, an `ok`
upload response with a truthy `task_id`, any number of pending polls, then the error
response; the task id one that converts to text, and the `elapsed_time` values ones
that convert to a Number, as `StatusOutcome.isPending` has it), the component ends with
`isProcessing = false`, `error = data.error`, `result = null` and nothing outstanding. -/
theorem checkTaskStatusResume_terminal (eng : Engine) (s : State) (taskId : JsVal) :
    (∀ data : Json, (data.field "status").strictEqStr "completed" = true →
        checkTaskStatusResume eng s taskId (StatusOutcome.data data) =
          ({ file := s.file, isProcessing := false, error := s.error,
             result := data.field "result", progress := F64.ofNat 100 }, []))
    ∧ (∀ data : Json, (data.field "status").strictEqStr "error" = true →
        checkTaskStatusResume eng s taskId (StatusOutcome.data data) =
          ({ file := s.file, isProcessing := false, error := data.field "error",
             result := s.result, progress := s.progress }, []))
    ∧ checkTaskStatusResume eng s taskId StatusOutcome.failed =
          ({ file := s.file, isProcessing := false,
             error := JsVal.str "Failed to check task status",
             result := s.result, progress := s.progress }, [])
    ∧ (∀ (f : File) (body : Json) (ds : List Json) (errData : Json),
        s.file = some f → (body.field "task_id").truthy = true →
        (body.field "task_id").conversionThrows = false →
        (∀ d ∈ ds, (StatusOutcome.data d).isPending = true) →
        (errData.field "status").strictEqStr "error" = true →
        ∃ p : F64,
          run eng { ui := s, pending := [] }
              ([Event.upload,
                Event.uploadSettled 0 (UploadOutcome.response true (Except.ok body))]
                ++ pendingPolls ds
                ++ [Event.statusSettled 0 (StatusOutcome.data errData)]) =
            some { ui := { file := some f, isProcessing := false,
                           error := errData.field "error", result := JsVal.null,
                           progress := p },
                   pending := [] }) := by
  refine ⟨?_, ?_, rfl, ?_⟩
  · intro data h
    cases data <;>
      first
      | (simp [Json.field, JsVal.strictEqStr] at h; done)
      | (simp only [checkTaskStatusResume, h, if_true])
  · intro data h
    have hc := JsVal.not_completed_of_error _ h
    cases data <;>
      first
      | (simp [Json.field, JsVal.strictEqStr] at h; done)
      | (simp only [checkTaskStatusResume, h, hc, if_true, Bool.false_eq_true, if_false])
  · intro f body ds errData hf hb hconv hds herr
    have hbody : handleUploadResume eng
        { file := some f, isProcessing := true, error := JsVal.null, result := JsVal.null,
          progress := F64.ofNat 0 }
        (UploadOutcome.response true (Except.ok body)) =
        ({ file := some f, isProcessing := true, error := JsVal.null, result := JsVal.null,
           progress := F64.ofNat 0 },
         [Effect.fetchGet statusUrlPrefix (body.field "task_id")]) := by
      cases body <;>
        first
        | (simp [Json.field, JsVal.truthy] at hb; done)
        | (simp only [handleUploadResume, hb, if_true]
           exact checkTaskStatus_of_converts _ _ hconv)
    obtain ⟨p, hp⟩ := run_pendingPolls eng (body.field "task_id")
      [Event.statusSettled 0 (StatusOutcome.data errData)] hconv ds
      { file := some f, isProcessing := true, error := JsVal.null, result := JsVal.null,
        progress := F64.ofNat 0 } hds
    refine ⟨p, ?_⟩
    have hc := JsVal.not_completed_of_error _ herr
    have herrStep : checkTaskStatusResume eng
        { file := some f, isProcessing := true, error := JsVal.null, result := JsVal.null,
          progress := p } (body.field "task_id") (StatusOutcome.data errData) =
        ({ file := some f, isProcessing := false, error := errData.field "error",
           result := JsVal.null, progress := p }, []) := by
      cases errData <;>
        first
        | (simp [Json.field, JsVal.strictEqStr] at herr; done)
        | (simp only [checkTaskStatusResume, herr, hc, if_true, Bool.false_eq_true, if_false])
    have h1 : step eng { ui := s, pending := [] } Event.upload =
        some { ui := { file := some f, isProcessing := true, error := JsVal.null,
                       result := JsVal.null, progress := F64.ofNat 0 },
               pending := [Effect.fetchPost uploadUrl f] } := by
      simp only [step, handleUpload, hf, List.nil_append]
    have h2 : step eng
        { ui := { file := some f, isProcessing := true, error := JsVal.null,
                  result := JsVal.null, progress := F64.ofNat 0 },
          pending := [Effect.fetchPost uploadUrl f] }
        (Event.uploadSettled 0 (UploadOutcome.response true (Except.ok body))) =
        some { ui := { file := some f, isProcessing := true, error := JsVal.null,
                       result := JsVal.null, progress := F64.ofNat 0 },
               pending := [Effect.fetchGet statusUrlPrefix (body.field "task_id")] } := by
      simp only [step, List.getElem?_cons_zero, hbody, List.eraseIdx_cons_zero, List.nil_append]
    have h3 : step eng
        { ui := { file := some f, isProcessing := true, error := JsVal.null,
                  result := JsVal.null, progress := p },
          pending := [Effect.fetchGet statusUrlPrefix (body.field "task_id")] }
        (Event.statusSettled 0 (StatusOutcome.data errData)) =
        some { ui := { file := some f, isProcessing := false, error := errData.field "error",
                       result := JsVal.null, progress := p },
               pending := [] } := by
      simp only [step, List.getElem?_cons_zero, herrStep, List.eraseIdx_cons_zero,
        List.nil_append]
    rw [List.append_assoc, List.cons_append, List.cons_append, List.nil_append,
      run_cons_of_step eng _ _ _ _ h1, run_cons_of_step eng _ _ _ _ h2, hp,
      run_cons_of_step eng _ _ _ _ h3]
    rfl

/-- C7 for the response `{"status": "error", "error": "bad pdf"}` after the upload of
`samplePdf` and one pending poll: the component ends with `isProcessing = false`,
the error "bad pdf" and `result = null`. -/
theorem checkTaskStatusResume_terminal_witness :
    ∃ p : F64,
      run Engine.v8 { ui := (handleFileChange initialState (some samplePdf)).1, pending := [] }
          ([Event.upload,
            Event.uploadSettled 0
              (UploadOutcome.response true (Except.ok (Json.obj [("task_id", Json.str "abc")])))]
            ++ pendingPolls [pendingData 60]
            ++ [Event.statusSettled 0 (StatusOutcome.data
                  (Json.obj [("status", Json.str "error"), ("error", Json.str "bad pdf")]))]) =
        some { ui := { file := some samplePdf, isProcessing := false,
                       error := JsVal.str "bad pdf", result := JsVal.null, progress := p },
               pending := [] } :=
  (checkTaskStatusResume_terminal Engine.v8
      (handleFileChange initialState (some samplePdf)).1 JsVal.undefined).2.2.2
    samplePdf (Json.obj [("task_id", Json.str "abc")]) [pendingData 60]
    (Json.obj [("status", Json.str "error"), ("error", Json.str "bad pdf")])
    rfl rfl rfl (by decide) rfl

/-! ## The progress estimate along every run -/

/-- C8, as stated, fails: after a PDF is selected and uploaded, the pending response
`{"status": "pending", "elapsed_time": -60}` leaves `progress = -50`, below 0. -/
theorem progress_negative_counterexample :
    (run Engine.v8 Config.init
        (startEvents ++ [Event.statusSettled 0 (StatusOutcome.data negativeElapsedData)])).map
      (fun c => (c.ui.progress, c.ui.progress.toInt?, c.ui.isProcessing)) =
    some (F64.fin true 50 0, some (-50), true) := by
  decide

/-- C8, amended: in every state reached from the initial one by a sequence of
selections, uploads, settled requests and due timers in which every pending status
response carries a numeric `elapsed_time` that is at least zero, `progress` is an
integer from 0 to 100, and it is 100 only if one of the events was a status response
with `status === 'completed'`. -/
theorem progress_range (eng : Engine) (evs : List Event) (c : Config)
    (hrun : run eng Config.init evs = some c)
    (hw : ∀ ev ∈ evs, ev.elapsedNonneg = true) :
    (∃ k : Nat, k ≤ 100 ∧ c.ui.progress.toInt? = some (k : Int))
      ∧ (c.ui.progress.toInt? = some 100 → ∃ ev ∈ evs, ev.isCompleted = true) := by
  have h := run_progress eng evs Config.init c False hrun hw (Or.inl isNatUpTo_zero)
  rcases h with ⟨k, hk, hk2⟩ | ⟨h, hP⟩
  · refine ⟨⟨k, by omega, hk2⟩, ?_⟩
    intro h100
    rw [hk2] at h100
    simp only [Option.some.injEq] at h100
    omega
  · refine ⟨⟨100, le_refl _, ?_⟩, ?_⟩
    · rw [h]; decide
    · intro _
      rcases hP with hP | hP
      · exact absurd hP id
      · exact hP

/-- C8, amended, on the run of the specification: the polls answer with
`elapsed_time` 60, then 180, then `completed`; `progress` ends at 100. -/
theorem progress_range_witness :
    run Engine.v8 Config.init
        (startEvents ++ pendingPolls [pendingData 60, pendingData 180]
          ++ [Event.statusSettled 0 (StatusOutcome.data completedData)]) =
      some { ui := { file := some samplePdf, isProcessing := false, error := JsVal.null,
                     result := JsVal.json (Json.obj [("x", Json.num (F64.ofNat 1))]),
                     progress := F64.ofNat 100 },
             pending := [] }
    ∧ (∃ k : Nat, k ≤ 100 ∧ (F64.ofNat 100).toInt? = some (k : Int))
    ∧ ((F64.ofNat 100).toInt? = some 100 →
        ∃ ev ∈ startEvents ++ pendingPolls [pendingData 60, pendingData 180]
            ++ [Event.statusSettled 0 (StatusOutcome.data completedData)],
          ev.isCompleted = true) :=
  ⟨rfl,
   progress_range Engine.v8
    (startEvents ++ pendingPolls [pendingData 60, pendingData 180]
      ++ [Event.statusSettled 0 (StatusOutcome.data completedData)])
    { ui := { file := some samplePdf, isProcessing := false, error := JsVal.null,
              result := JsVal.json (Json.obj [("x", Json.num (F64.ofNat 1))]),
              progress := F64.ofNat 100 },
      pending := [] }
    rfl (by decide)⟩

/-! ## Failure paths and rendering -/

/-- C9, as stated, fails: selecting a file that is not a PDF in the initial state is a
failure path (the error is set) that ends with `isProcessing = false` and the action
button disabled. -/
theorem wrong_type_button_counterexample :
    (handleFileChange initialState (some sampleText)).1.error =
        JsVal.str "Please select a PDF file" ∧
    (handleFileChange initialState (some sampleText)).1.isProcessing = false ∧
    (render (handleFileChange initialState (some sampleText)).1).map
        (fun v => (v.selectDisabled, v.actionLabel, v.actionDisabled)) =
      some (false, "Upload and Analyze", true) :=
  ⟨rfl, rfl, rfl⟩

/-- C9, amended.  Every failure of an upload (a rejected upload request, an upload
response that is not `ok`, an upload body that does not parse or has no usable
`task_id`) ends, from whatever state `s`, with nothing issued, `isProcessing = false`
and the selected file untouched; the component is rendered with the file picker
enabled and the action button, reading "Upload and Analyze", enabled exactly when a
file is selected in `s`.  Every failure of a poll (a status response with
`status === 'error'`, a failed status request, a response that cannot be read) ends
in the same way when the error value it leaves is one React can show, as every text
is; when that value is a plain object, rendering throws and nothing is shown.  The
two validation failures (a selection that is not a PDF, an upload with no file
selected) issue nothing, leave `isProcessing` as it was and end with no file selected:
the action button is disabled, and the file picker is enabled exactly when
`isProcessing` was false. -/
theorem failure_paths_idle (eng : Engine) (s : State) (taskId : JsVal) :
    (∀ o : UploadOutcome, o.isFailure = true →
        (handleUploadResume eng s o).2 = [] ∧
        (handleUploadResume eng s o).1.isProcessing = false ∧
        (handleUploadResume eng s o).1.file = s.file ∧
        ∃ v : View, render (handleUploadResume eng s o).1 = some v ∧
          v.selectDisabled = false ∧ v.actionLabel = "Upload and Analyze" ∧
          (v.actionDisabled = false ↔ ∃ f : File, s.file = some f))
    ∧ (∀ o : StatusOutcome, o.isPending = false → o.isCompleted = false →
        (checkTaskStatusResume eng s taskId o).2 = [] ∧
        (checkTaskStatusResume eng s taskId o).1.isProcessing = false ∧
        (checkTaskStatusResume eng s taskId o).1.file = s.file ∧
        ((checkTaskStatusResume eng s taskId o).1.error.validChild = true →
          ∃ v : View, render (checkTaskStatusResume eng s taskId o).1 = some v ∧
            v.selectDisabled = false ∧ v.actionLabel = "Upload and Analyze" ∧
            (v.actionDisabled = false ↔ ∃ f : File, s.file = some f)) ∧
        ((checkTaskStatusResume eng s taskId o).1.error.validChild = false →
          render (checkTaskStatusResume eng s taskId o).1 = none) ∧
        ((checkTaskStatusResume eng s taskId o).1.error = JsVal.str "Failed to check task status"
          ∨ ∃ d : Json, o = StatusOutcome.data d ∧
              (checkTaskStatusResume eng s taskId o).1.error = d.field "error"))
    ∧ (∀ selectedFile : Option File,
        (∀ f : File, selectedFile = some f → f.type ≠ "application/pdf") →
        (handleFileChange s selectedFile).2 = [] ∧
        (handleFileChange s selectedFile).1.isProcessing = s.isProcessing ∧
        (handleFileChange s selectedFile).1.file = none ∧
        ∃ v : View, render (handleFileChange s selectedFile).1 = some v ∧
          v.selectDisabled = s.isProcessing ∧ v.actionDisabled = true)
    ∧ (s.file = none →
        (handleUpload s).2 = [] ∧
        (handleUpload s).1.isProcessing = s.isProcessing ∧
        (handleUpload s).1.file = none ∧
        ∃ v : View, render (handleUpload s).1 = some v ∧
          v.selectDisabled = s.isProcessing ∧ v.actionDisabled = true) := by
  refine ⟨?_, ?_, ?_, ?_⟩
  · intro o ho
    obtain ⟨m, hm⟩ := handleUploadResume_of_isFailure eng s o ho
    rw [hm]
    exact ⟨rfl, rfl, rfl, render_idle _ rfl rfl⟩
  · intro o hp hc
    obtain ⟨v, hv, hor⟩ := checkTaskStatusResume_of_failure eng s taskId o hp hc
    rw [hv]
    exact ⟨rfl, rfl, rfl, fun h => render_idle _ rfl h,
      fun h => render_of_not_validChild _ h, hor⟩
  · intro selectedFile hsel
    have h : handleFileChange s selectedFile =
        ({ s with error := JsVal.str "Please select a PDF file", file := none }, []) := by
      cases selectedFile with
      | none => rfl
      | some f => simp only [handleFileChange, if_neg (hsel f rfl)]
    rw [h]
    exact ⟨rfl, rfl, rfl, _, render_of_validChild _ rfl, rfl, by simp⟩
  · intro hf
    have h : handleUpload s = ({ s with error := JsVal.str "Please select a file first" }, []) := by
      simp only [handleUpload, hf]
    rw [h]
    exact ⟨rfl, rfl, hf, _, render_of_validChild _ rfl, rfl, by simp [hf]⟩

/-- C9, amended, at an upload answered with status 500 while `samplePdf` is selected:
the component is idle again and both buttons are enabled. -/
theorem failure_paths_idle_witness :
    (handleUploadResume Engine.v8 uploadingState
        (UploadOutcome.response false (Except.error "Unexpected token"))).2 = [] ∧
    (handleUploadResume Engine.v8 uploadingState
        (UploadOutcome.response false (Except.error "Unexpected token"))).1.isProcessing = false ∧
    (handleUploadResume Engine.v8 uploadingState
        (UploadOutcome.response false (Except.error "Unexpected token"))).1.file
        = uploadingState.file ∧
    ∃ v : View, render (handleUploadResume Engine.v8 uploadingState
        (UploadOutcome.response false (Except.error "Unexpected token"))).1 = some v ∧
      v.selectDisabled = false ∧ v.actionLabel = "Upload and Analyze" ∧
      (v.actionDisabled = false ↔ ∃ f : File, uploadingState.file = some f) :=
  (failure_paths_idle Engine.v8 uploadingState JsVal.undefined).1
    (UploadOutcome.response false (Except.error "Unexpected token")) rfl

/-- C10, as stated, fails: the upload of `samplePdf` ending with the status response
`{"status": "error", "error": {"code": 1}}` leaves a state in which rendering throws
and no button is shown, while the state with the same `file` and `isProcessing` and no
error shows the button "Upload and Analyze", enabled. -/
theorem render_object_error_counterexample :
    run Engine.v8 Config.init
        (startEvents ++ [Event.statusSettled 0 (StatusOutcome.data objectErrorData)]) =
      some { ui := objectErrorState, pending := [] } ∧
    render objectErrorState = none ∧
    (render { objectErrorState with error := JsVal.null }).map
        (fun v => (v.actionLabel, v.actionDisabled)) =
      some ("Upload and Analyze", false) :=
  ⟨rfl, rfl, rfl⟩

/-- C10, amended: every state whose error value React can show (every text and
`null` is such a value; a plain object, or an array with one in it, is not) is
rendered, and its action button is a function of `file` and `isProcessing`.  While
processing it reads "Processing..." and is disabled; otherwise it reads "Upload and
Analyze" and is disabled exactly when no file is selected.  Two such states with the
same `file` and `isProcessing` (in particular one state rendered twice) give the same
label and the same disabled flag.  In every other state rendering throws and no
button is shown. -/
theorem render_action_button (s : State) (hv : s.error.validChild = true) :
    ∃ v : View, render s = some v
      ∧ (s.isProcessing = true → v.actionLabel = "Processing..." ∧ v.actionDisabled = true)
      ∧ (s.isProcessing = false →
          v.actionLabel = "Upload and Analyze" ∧ (v.actionDisabled = true ↔ s.file = none))
      ∧ (∀ t : State, t.error.validChild = true → t.file = s.file →
          t.isProcessing = s.isProcessing →
          ∃ w : View, render t = some w ∧ w.actionLabel = v.actionLabel ∧
            w.actionDisabled = v.actionDisabled)
      ∧ (∀ t : State, t.error.validChild = false → render t = none) := by
  refine ⟨_, render_of_validChild s hv, ?_, ?_, ?_, fun t ht => render_of_not_validChild t ht⟩
  · intro h
    simp [h]
  · intro h
    refine ⟨by simp [h], ?_⟩
    cases hf : s.file <;> simp [h]
  · intro t ht hf hp
    exact ⟨_, render_of_validChild t ht, by simp [hp], by simp [hf, hp]⟩

/-- C10, amended, at `busyState`. -/
theorem render_action_button_witness :
    ∃ v : View, render busyState = some v
      ∧ (busyState.isProcessing = true →
          v.actionLabel = "Processing..." ∧ v.actionDisabled = true) :=
  match render_action_button busyState rfl with
  | ⟨v, h1, h2, _⟩ => ⟨v, h1, h2⟩

end PaperUploader
